import Mathlib

/-!
Verification of the download/update simulation engine of HappyPhoneBot.

The repository contains two near-identical network-simulation modules:
* `src/commands/main/terminal/network.js` — embedded below in namespace `Network`;
* `src/unnamed/part_001` — embedded below in namespace `Part001`.
The package/update orchestrator `src/unnamed/part_002` (the `pkg` module) is
embedded in namespace `Pkg`.

JavaScript numbers are modelled as rationals (`ℚ`); `Math.round` as
round-half-up; `Math.random()` draws are passed as explicit parameters;
the async persistence layer is modelled by returning the list of filesystem
snapshots handed to `saveToDB`, in order.
-/

/-- JS `Math.round`: round half toward positive infinity. -/
def jsRound (q : ℚ) : ℤ := ⌊q + 1 / 2⌋

/-- Left-pad a numeral string with zeros to width `d`. -/
def padZeros (s : String) (d : ℕ) : String :=
  String.mk (List.replicate (d - s.length) '0') ++ s

/-- JS `Number.prototype.toFixed(d)`: decimal rendering with `d` digits. -/
def toFixed (q : ℚ) (d : ℕ) : String :=
  let n := jsRound (q * (10 : ℚ) ^ d)
  let sign := if n < 0 then "-" else ""
  let m := n.natAbs
  if d = 0 then sign ++ toString m
  else sign ++ toString (m / 10 ^ d) ++ "." ++ padZeros (toString (m % 10 ^ d)) d

/-- JS default number-to-string for the short decimal fractions produced by the
formatters of this repository (integers and `toFixed`-roundtripped values). -/
def jsNumRepr (q : ℚ) : String :=
  if q.den = 1 then toString q.num
  else if (q * 10).den = 1 then toFixed q 1
  else if (q * 100).den = 1 then toFixed q 2
  else toFixed q 6

/-- JS `x?.content || dflt` for an optional text leaf: `undefined` and the
empty string are both falsy. -/
def jsOrStr (o : Option String) (dflt : String) : String :=
  match o with
  | none => dflt
  | some s => if s = "" then dflt else s

/-- A user's simulated network parameters (`DEFAULT_CONFIG` shape in both
network modules). -/
structure NetworkConfig where
  speed : ℚ
  latency : ℚ
  packetLoss : ℚ
  jitter : ℚ
  enabled : Bool
deriving DecidableEq

/-- `DEFAULT_CONFIG` of both network modules: 500 Mbps, 20 ms latency,
no loss, no jitter, enabled. -/
def DEFAULT_CONFIG : NetworkConfig :=
  { speed := 500, latency := 20, packetLoss := 0, jitter := 0, enabled := true }

/-- One progress step of a download plan. -/
structure Step where
  progress : ℚ
  message : String
  wait : ℚ
  complete : Bool
deriving DecidableEq, Inhabited

/-- Result shape of `calculateDownloadTime`. -/
structure TimeResult where
  time : ℚ
  size : ℚ
deriving DecidableEq

/-- `formatSize` (identical in both network modules). -/
def formatSize (sizeKB : ℚ) : String :=
  let formattedSize := if sizeKB.den = 1 then sizeKB else ((jsRound (sizeKB * 100) : ℚ) / 100)
  if formattedSize < 1024 then jsNumRepr formattedSize ++ " KB"
  else toFixed (formattedSize / 1024) 2 ++ " MB"

/-- `formatTime` (identical in both network modules). -/
def formatTime (timeMs : ℚ) : String :=
  if timeMs < 1000 then jsNumRepr timeMs ++ " ms"
  else toFixed (timeMs / 1000) 2 ++ " seconds"

/-- In-flight download state as stored in the `activeDownloads` registry of the
`pkg` module (`steps`, `currentStep`, `lastUpdate`, and for OS updates
`isUpdate`/`targetVersion`). -/
structure DownloadState where
  steps : List Step
  currentStep : ℕ
  lastUpdate : ℤ := 0
  isUpdate : Bool := false
  targetVersion : String := ""
deriving DecidableEq

namespace Network
/-! Embedding of `src/commands/main/terminal/network.js`. -/

/-- `PACKAGE_SIZES` table of the network module (KB). -/
def PACKAGE_SIZES : List (String × ℚ) :=
  [("echo", 472), ("edit", 8400), ("test", 407), ("edit-file", 8400), ("happyphone", 413)]

/-- `PACKAGE_SIZES[packageName] || 1024` (all table values are nonzero). -/
def resolveSize (packageName : String) : ℚ :=
  (PACKAGE_SIZES.lookup packageName).getD 1024

/-- `calculateDownloadTime`, as a function of the resolved package size
(`resolveSize`) and of the jitter draw `j = Math.random() * config.jitter`.
This variant has no minimum-duration floor and treats a base transfer time
under 30 ms as instant. -/
def calculateDownloadTime (config : NetworkConfig) (packageSize : ℚ) (j : ℚ) : TimeResult :=
  if config.enabled = false then { time := 0, size := packageSize }
  else
    let sizeInBits := packageSize * 8 * 1024
    let speedInBitsPerSec := config.speed * 1000000
    let downloadTime := sizeInBits / speedInBitsPerSec * 1000
    if downloadTime < 30 then { time := 0, size := packageSize }
    else
      let t1 := downloadTime + config.latency
      let t2 := if config.jitter > 0 then t1 + j else t1
      let t3 := if config.packetLoss > 0 then t2 * (1 + config.packetLoss / 100) else t2
      { time := (jsRound t3 : ℚ), size := packageSize }

/-- `createDownloadSteps`; `u i ∈ [0,1)` is the `Math.random()` draw used for
the wait-time variation of step `i`. -/
def createDownloadSteps (config : NetworkConfig) (packageSize : ℚ) (packageName : String)
    (j : ℚ) (u : ℕ → ℚ) : List Step :=
  let r := calculateDownloadTime config packageSize j
  let time := r.time
  let size := r.size
  if time = 0 ∨ config.enabled = false ∨ time < 100 then
    [{ progress := 100, message := "Downloaded " ++ formatSize size ++ " instantly",
       wait := 0, complete := true }]
  else
    let updateInterval : ℚ := 1500
    let numUpdates : ℕ := (max 3 ⌈time / updateInterval⌉).toNat
    let bytesPerMs := size / time
    (List.range numUpdates).map fun (i : ℕ) =>
      let isComplete := i = numUpdates - 1
      let waitTime :=
        if isComplete then max 500 (time - (i : ℚ) * updateInterval)
        else updateInterval * (9 / 10 + u i * (2 / 10))
      let elapsedTime := (i : ℚ) * updateInterval
      let downloadedAmount := if isComplete then size else min size (bytesPerMs * elapsedTime)
      let progress := downloadedAmount / size * 100
      { progress := progress,
        message :=
          if isComplete then "Downloaded " ++ formatSize size ++ " in " ++ formatTime time
          else "Downloading " ++ packageName ++ "... " ++ toFixed progress 1 ++ "% ("
            ++ formatSize downloadedAmount ++ "/" ++ formatSize size ++ ")",
        wait := waitTime, complete := isComplete }

end Network

namespace Part001
/-! Embedding of `src/unnamed/part_001` (the second network module). -/

/-- `PACKAGE_SIZES` table (identical to the other module's). -/
def PACKAGE_SIZES : List (String × ℚ) :=
  [("echo", 472), ("edit", 8400), ("test", 407), ("edit-file", 8400), ("happyphone", 413)]

/-- `calculateDownloadTime` of `part_001`, as a function of the resolved
package size (`packageSizeKB || PACKAGE_SIZES[packageName] || 1024`) and of
the jitter draw `j`. This variant enforces the proportional minimum-duration
floor `min(1000, packageSize)`. -/
def calculateDownloadTime (config : NetworkConfig) (packageSize : ℚ) (j : ℚ) : TimeResult :=
  if config.enabled = false then { time := 0, size := packageSize }
  else
    let sizeInBits := packageSize * 8 * 1024
    let speedInBitsPerSec := config.speed * 1000000
    let downloadTime0 := sizeInBits / speedInBitsPerSec * 1000
    let minTime := min 1000 packageSize
    let downloadTime1 := max minTime downloadTime0
    let downloadTime2 := downloadTime1 + config.latency
    let downloadTime3 := if config.jitter > 0 then downloadTime2 + j else downloadTime2
    let downloadTime4 :=
      if config.packetLoss > 0 then downloadTime3 * (1 + config.packetLoss / 100)
      else downloadTime3
    { time := (jsRound downloadTime4 : ℚ), size := packageSize }

/-- `createDownloadSteps` of `part_001`: no minimum-of-3 rule, fixed 1500 ms
waits for non-final steps, loop `i = 1 .. numUpdates`. -/
def createDownloadSteps (config : NetworkConfig) (size : ℚ) (packageName : String)
    (j : ℚ) : List Step :=
  let time := (calculateDownloadTime config size j).time
  if config.enabled = false then
    [{ progress := 100, message := "Downloaded " ++ formatSize size ++ " instantly",
       wait := 0, complete := true }]
  else
    let interval : ℚ := 1500
    let numUpdates : ℕ := (⌈time / interval⌉).toNat
    (List.range numUpdates).map fun (k : ℕ) =>
      let i : ℚ := (k : ℚ) + 1
      let isLast := k + 1 = numUpdates
      let wait :=
        if isLast then max 50 (time - interval * ((numUpdates : ℚ) - 1)) else interval
      let elapsed := min time (i * interval)
      let progress := (jsRound (elapsed / time * 100 * 10) : ℚ) / 10
      let downloaded := size * elapsed / time
      { progress := if isLast then 100 else progress,
        message :=
          if isLast then "Downloaded " ++ formatSize size ++ " in " ++ formatTime time
          else "Downloading " ++ packageName ++ "... " ++ toFixed progress 1 ++ "% ("
            ++ formatSize downloaded ++ "/" ++ formatSize size ++ ")",
        wait := wait, complete := isLast }

/-- `recalculateDownloadSteps` of `part_001` (the same code also appears in
`network.js`). `size` is the table-resolved package size used by the internal
`calculateDownloadTime(userId, packageName)` call; `u i` is the wait-variation
draw of tail step `i`. -/
def recalculateDownloadSteps (config : NetworkConfig) (packageName : String) (size : ℚ)
    (j : ℚ) (u : ℕ → ℚ) :
    Option DownloadState → Option DownloadState
  | none => none
  | some downloadState =>
    if downloadState.steps.length ≤ downloadState.currentStep then some downloadState
    else
      let time := (calculateDownloadTime config size j).time
      if time = 0 ∨ config.enabled = false ∨ time < 100 then
        some { downloadState with currentStep := downloadState.steps.length - 1 }
      else
        let currentProgress := (downloadState.steps.getD downloadState.currentStep default).progress
        let downloadedAmount := size * currentProgress / 100
        let remainingSize := size - downloadedAmount
        let remainingSizeInBits := remainingSize * 8 * 1024
        let speedInBitsPerSec := config.speed * 1000000
        let remainingTimeSeconds := remainingSizeInBits / speedInBitsPerSec
        let remainingTimeMs := max 100 (remainingTimeSeconds * 1000)
        let updateInterval : ℚ := 1500
        let numUpdates : ℕ := (max 1 ⌈remainingTimeMs / updateInterval⌉).toNat
        let bytesPerMs := remainingSize / remainingTimeMs
        let newSteps := (List.range numUpdates).map fun (i : ℕ) =>
          let isComplete := i = numUpdates - 1
          let waitTime :=
            if isComplete then max 500 (remainingTimeMs - (i : ℚ) * updateInterval)
            else updateInterval * (9 / 10 + u i * (2 / 10))
          let elapsedTime := (i : ℚ) * updateInterval
          let additionalDownloaded :=
            if isComplete then remainingSize else min remainingSize (bytesPerMs * elapsedTime)
          let stepDownloadedAmount := downloadedAmount + additionalDownloaded
          let progress := stepDownloadedAmount / size * 100
          { progress := progress,
            message :=
              if isComplete then
                "Downloaded " ++ formatSize size ++ " in "
                  ++ formatTime (time * (currentProgress / 100) + remainingTimeMs)
              else "Downloading " ++ packageName ++ "... " ++ toFixed progress 1 ++ "% ("
                ++ formatSize stepDownloadedAmount ++ "/" ++ formatSize size ++ ")",
            wait := waitTime, complete := isComplete }
        some { downloadState with
          steps := downloadState.steps.take (downloadState.currentStep + 1) ++ newSteps }

end Part001

namespace Pkg
/-! Embedding of `src/unnamed/part_002` (the `pkg` module: version resolver,
active-download registry and download/update orchestrator). -/

/-- `latestOSVersion`. -/
def latestOSVersion : String := "1.0.0.1"

/-- `osBranches`: branch name to latest version (as initialised in source;
the external `updates/` data directory may extend it at runtime). -/
def osBranches : List (String × String) :=
  [("stable", "1.0.0.1"), ("unstable", "1.0.0.2")]

/-- `packageDefinitions` as loaded from the `packages/` directory present in
the repository (`echo.js`, `edit.js`): package name to per-branch minimum
version. -/
def packageDefinitions : List (String × List (String × String)) :=
  [("echo", [("stable", "1.0.0"), ("unstable", "1.0.0")]),
   ("edit", [("stable", "1.0.0"), ("unstable", "1.0.0")])]

/-- `PACKAGE_SIZES` of the `pkg` module, loaded from the same package files. -/
def PACKAGE_SIZES : List (String × ℚ) := [("echo", 472), ("edit", 8400)]

/-- `String.prototype.split(sep)` on character lists. -/
def splitOnChar (sep : Char) : List Char → List (List Char)
  | [] => [[]]
  | c :: cs =>
    if c = sep then [] :: splitOnChar sep cs
    else
      match splitOnChar sep cs with
      | [] => [[c]]
      | p :: ps => (c :: p) :: ps

/-- JS `Number(component) || 0` for the decimal-digit version components the
resolver compares (the empty component gives 0, as does a non-numeric one via
`NaN || 0`). -/
def parseNum (cs : List Char) : ℕ :=
  if cs.all Char.isDigit then cs.foldl (fun a c => a * 10 + (c.toNat - '0'.toNat)) 0 else 0

/-- `version.split(".").map(Number)`. -/
def verParts (s : String) : List ℕ := (splitOnChar '.' s.data).map parseNum

/-- The comparison loop of `compareVersions`: indices run to the longer
length, missing components read as 0 (`vParts[i] || 0`). -/
def cmpParts : List ℕ → List ℕ → ℤ
  | [], [] => 0
  | x :: xs, y :: ys => if x > y then 1 else if x < y then -1 else cmpParts xs ys
  | x :: xs, [] => if x > 0 then 1 else cmpParts xs []
  | [], y :: ys => if 0 > y then 1 else if 0 < y then -1 else cmpParts [] ys

/-- `compareVersions(version1, version2)`. -/
def compareVersions (version1 version2 : String) : ℤ :=
  cmpParts (verParts version1) (verParts version2)

/-- Padded component `i` of a version string (missing components are 0);
used to state what `compareVersions` decides. -/
def partAt (s : String) (i : ℕ) : ℕ := (verParts s).getD i 0

/-- `isPackageAvailable(packageName, osVersion, osBranch)`. -/
def isPackageAvailable (packageName osVersion osBranch : String) : Bool :=
  match packageDefinitions.lookup packageName with
  | none => false
  | some branches =>
    match branches.lookup osBranch with
    | none => false
    | some minVersion => decide (compareVersions osVersion minVersion ≥ 0)

/-- The filesystem leaves the orchestrator reads/writes: the `/sys/pkgs`
directory (file name to content), the `/sys/os_version` and `/sys/os_branch`
leaves, and the root-level `/os_branch` leaf that one code path consults
(absent in the default filesystem). -/
structure UserFS where
  pkgs : List (String × String)
  os_version : Option String
  os_branch : Option String
  root_os_branch : Option String := none
deriving DecidableEq

/-- `pkgDir[key] = {...}`: set-or-insert into the `/sys/pkgs` directory. -/
def setPkg : List (String × String) → String → String → List (String × String)
  | [], key, value => [(key, value)]
  | (k, v) :: rest, key, value =>
    if k = key then (key, value) :: rest else (k, v) :: setPkg rest key value

/-- The content written for an installed package record. -/
def pkgContent (packageName currentVersion currentBranch : String) : String :=
  "Package: " ++ packageName ++ "\nVersion: " ++ currentVersion
    ++ "\nBranch: " ++ currentBranch

/-- `packageName.startsWith('update-')`. -/
def isUpdateName (s : String) : Bool := decide (s.data.take 7 = "update-".data)

/-- `packageName.split('-')[1]` (the target version of an `update-…` key). -/
def dashPart (s : String) : String := String.mk ((splitOnChar '-' s.data).getD 1 [])

/-- `getUpdateSize(version)`: `UPDATE_SIZES[version] || 2048`, with the
`UPDATE_SIZES` table passed in because it is loaded from the external
`updates/` data directory (all sizes nonzero). -/
def getUpdateSize (updateSizes : List (String × ℚ)) (version : String) : ℚ :=
  (updateSizes.lookup version).getD 2048

/-- Result of one `processDownload` call: the returned message (JS `null`
becomes `none`), the in-memory filesystem, the registry entry for the polled
key after the call, and the snapshots handed to `saveToDB`. -/
structure PollResult where
  message : Option String
  fs : UserFS
  reg : Option DownloadState
  persisted : List UserFS
deriving DecidableEq

/-- `processDownload(userId, userFS, packageName, initialRequest)`.
`mkSteps` stands for the imported `createDownloadSteps(userId, packageName,
explicitSizeKB)` of the network module (its first argument is the explicit
size, `none` when the caller read an absent `PACKAGE_SIZES` entry); `now` is
`Date.now()` — the source computes it on non-initial polls but never reads
it. -/
def processDownload (mkSteps : Option ℚ → String → List Step)
    (updateSizes : List (String × ℚ)) (now : ℤ)
    (fs : UserFS) (packageName : String) (reg : Option DownloadState)
    (initialRequest : Bool) : PollResult :=
  let isUpdate := isUpdateName packageName
  match reg with
  | some downloadState =>
    if downloadState.currentStep < downloadState.steps.length then
      let step := downloadState.steps.getD downloadState.currentStep default
      if initialRequest = false then
        if downloadState.currentStep = downloadState.steps.length - 1 then
          if isUpdate then
            let targetVersion := downloadState.targetVersion
            let currentBranch := jsOrStr fs.os_branch "stable"
            let fs1 := { fs with os_version := some targetVersion }
            { message := some ("System updated to version " ++ targetVersion
                ++ " (" ++ currentBranch ++ " branch)"),
              fs := fs1, reg := none, persisted := [fs1] }
          else
            let currentVersion := jsOrStr fs.os_version "1.0.0"
            let currentBranch := jsOrStr fs.os_branch "stable"
            let fs1 := { fs with
              pkgs := setPkg fs.pkgs (packageName ++ ".pkg")
                (pkgContent packageName currentVersion currentBranch) }
            { message := some ("Package " ++ packageName ++ " installed successfully"),
              fs := fs1, reg := none, persisted := [fs1] }
        else
          { message := some step.message, fs := fs, reg := some downloadState, persisted := [] }
      else
        { message := some step.message, fs := fs, reg := some downloadState, persisted := [] }
    else
      { message := some (if isUpdate then
          "System updated to version " ++ downloadState.targetVersion
        else "Package " ++ packageName ++ " installed successfully"),
        fs := fs, reg := none, persisted := [] }
  | none =>
    if initialRequest then
      if isUpdate then
        let targetVersion := dashPart packageName
        let updateSize := getUpdateSize updateSizes targetVersion
        let steps := mkSteps (some updateSize) packageName
        if steps.length = 1 ∧ (steps.getD 0 default).wait = 0 then
          let currentBranch := jsOrStr fs.os_branch "stable"
          let fs1 := { fs with os_version := some targetVersion }
          { message := some ("System updated to version " ++ targetVersion
              ++ " (" ++ currentBranch ++ " branch)"),
            fs := fs1, reg := none, persisted := [fs1] }
        else
          { message := some ("Started downloading system update to " ++ targetVersion
              ++ "...\n" ++ (steps.getD 0 default).message),
            fs := fs,
            reg := some { steps := steps, currentStep := 0, lastUpdate := now,
                          isUpdate := true, targetVersion := targetVersion },
            persisted := [] }
      else
        let steps := mkSteps (PACKAGE_SIZES.lookup packageName) packageName
        if steps.length = 1 ∧ (steps.getD 0 default).wait = 0 then
          let currentVersion := jsOrStr fs.os_version "1.0.0"
          let currentBranch := jsOrStr fs.root_os_branch "stable"
          let fs1 := { fs with
            pkgs := setPkg fs.pkgs (packageName ++ ".pkg")
              (pkgContent packageName currentVersion currentBranch) }
          { message := some ("Installed package: " ++ packageName),
            fs := fs1, reg := none, persisted := [fs1] }
        else
          { message := some ("Started downloading " ++ packageName ++ "...\n"
              ++ (steps.getD 0 default).message),
            fs := fs,
            reg := some { steps := steps, currentStep := 0, lastUpdate := now },
            persisted := [] }
    else
      { message := none, fs := fs, reg := none, persisted := [] }

/-- `startUpdateDownload(userId, targetVersion)`: the download state it
registers for the key `update-<targetVersion>`. -/
def startUpdateDownload (mkSteps : Option ℚ → String → List Step)
    (updateSizes : List (String × ℚ)) (now : ℤ) (targetVersion : String) : DownloadState :=
  { steps := mkSteps (some (getUpdateSize updateSizes targetVersion))
      ("update-" ++ targetVersion),
    currentStep := 0, lastUpdate := now, isUpdate := true, targetVersion := targetVersion }

/-- The `pkgCommand` preamble step that creates the `/sys/os_branch` leaf with
content `"stable"` when it is missing. -/
def ensureBranch (fs : UserFS) : UserFS :=
  match fs.os_branch with
  | none => { fs with os_branch := some "stable" }
  | some _ => fs

/-- Result of one `pkgCommand` invocation (message, in-memory filesystem,
registry entry for the touched key, persisted snapshots). -/
structure CmdResult where
  message : String
  fs : UserFS
  reg : Option DownloadState
  persisted : List UserFS
deriving DecidableEq

/-- The `install` case of `pkgCommand`, for `args = ["install", name, …]`.
`reg` is the registry entry for the named package. -/
def pkgInstall (mkSteps : Option ℚ → String → List Step)
    (updateSizes : List (String × ℚ)) (now : ℤ)
    (fs0 : UserFS) (reg : Option DownloadState) (args : List String) : CmdResult :=
  let fs := ensureBranch fs0
  let currentVersion := jsOrStr fs.os_version "1.0.0"
  let currentBranch := jsOrStr fs.os_branch "stable"
  let pkgName := args.getD 1 ""
  if pkgName = "" then
    { message := "Usage: pkg install <package>", fs := fs, reg := reg, persisted := [] }
  else if (fs.pkgs.lookup (pkgName ++ ".pkg")).isSome then
    { message := "pkg: Package '" ++ pkgName ++ "' is already installed.",
      fs := fs, reg := reg, persisted := [] }
  else if isPackageAvailable pkgName currentVersion currentBranch = false then
    { message :=
        match packageDefinitions.lookup pkgName with
        | some branches =>
          match branches.lookup currentBranch with
          | some minVersion => "pkg: Package '" ++ pkgName ++ "' requires " ++ currentBranch
              ++ " version " ++ minVersion ++ " or later."
          | none => "pkg: Package '" ++ pkgName ++ "' is not available on the "
              ++ currentBranch ++ " branch."
        | none => "pkg: Package '" ++ pkgName ++ "' not found.",
      fs := fs, reg := reg, persisted := [] }
  else
    let r := processDownload mkSteps updateSizes now fs pkgName none true
    { message := r.message.getD "", fs := r.fs, reg := r.reg, persisted := r.persisted }

/-- The tail of the `upgrade` case of `pkgCommand` once the target branch is
resolved: ensure `/sys/os_version`, compare, flip the branch leaf, persist,
and start the update download. `reg` is the registry entry for the
`update-<targetVersion>` key. -/
def pkgUpgradeGo (mkSteps : Option ℚ → String → List Step)
    (updateSizes : List (String × ℚ)) (now : ℤ)
    (fs1 : UserFS) (reg : Option DownloadState) (targetBranch : String) : CmdResult :=
  let fs := match fs1.os_version with
    | none => { fs1 with os_version := some "1.0.0" }
    | some _ => fs1
  let currentVersion := (fs.os_version).getD ""
  let currentBranch := (fs.os_branch).getD ""
  let targetVersion := (osBranches.lookup targetBranch).getD ""
  if currentVersion = targetVersion ∧ currentBranch = targetBranch then
    { message := "Your system is already up to date on branch '" ++ targetBranch ++ "'.",
      fs := fs, reg := reg, persisted := [] }
  else
    let isDowngrade := currentBranch = "unstable" ∧ targetBranch = "stable"
      ∧ compareVersions currentVersion targetVersion > 0
    let fs2 := { fs with os_branch := some targetBranch }
    let downloadState := startUpdateDownload mkSteps updateSizes now targetVersion
    let firstStep := downloadState.steps.getD 0 default
    { message :=
        (if isDowngrade then
          "Starting downgrade from " ++ currentBranch ++ " (" ++ currentVersion ++ ") to "
            ++ targetBranch ++ " (" ++ targetVersion ++ ")..."
        else
          "Starting system " ++ (if currentVersion = targetVersion then "switch" else "upgrade")
            ++ " to " ++ targetVersion ++ " (" ++ targetBranch ++ " branch)...")
        ++ "\n" ++ firstStep.message,
      fs := fs2, reg := some downloadState, persisted := [fs2] }

/-- The `upgrade` case of `pkgCommand`: find a `--<branch>` argument, validate
it against `osBranches`, then run `pkgUpgradeGo`. -/
def pkgUpgrade (mkSteps : Option ℚ → String → List Step)
    (updateSizes : List (String × ℚ)) (now : ℤ)
    (fs0 : UserFS) (reg : Option DownloadState) (args : List String) : CmdResult :=
  let fs := ensureBranch fs0
  match args.findIdx? (fun a => a.data.take 2 = ['-', '-']) with
  | some i =>
    let branchArg := String.mk ((args.getD i "").data.drop 2)
    match osBranches.lookup branchArg with
    | none =>
      { message := "pkg: Unknown branch '" ++ branchArg
          ++ "'. Available branches: stable, unstable",
        fs := fs, reg := reg, persisted := [] }
    | some _ => pkgUpgradeGo mkSteps updateSizes now fs reg branchArg
  | none => pkgUpgradeGo mkSteps updateSizes now fs reg "stable"

end Pkg

/-- Sample filesystem used by concrete witnesses. -/
def sampleFS : Pkg.UserFS := { pkgs := [], os_version := some "1.0.0", os_branch := some "stable" }

/-- Sample in-flight three-step download state used by concrete witnesses. -/
def sampleState : DownloadState :=
  { steps := [⟨0, "step0", 1500, false⟩, ⟨50, "step1", 1500, false⟩, ⟨100, "done", 500, true⟩],
    currentStep := 0 }

/-- Sample completed update state used by concrete witnesses. -/
def sampleUpdState : DownloadState :=
  { steps := [⟨100, "done", 500, true⟩], currentStep := 0, isUpdate := true,
    targetVersion := "1.0.0.2" }


namespace Pkg
/-! Lemmas for the version/branch resolver. -/

def padGet (xs : List ℕ) (i : ℕ) : ℕ := xs.getD i 0

@[simp] theorem padGet_nil (i : ℕ) : padGet [] i = 0 := rfl
@[simp] theorem padGet_cons_zero (x : ℕ) (xs : List ℕ) : padGet (x :: xs) 0 = x := rfl
@[simp] theorem padGet_cons_succ (x : ℕ) (xs : List ℕ) (i : ℕ) :
    padGet (x :: xs) (i + 1) = padGet xs i := rfl

theorem all_shift (a b : ℕ → ℕ) (h0 : a 0 = b 0) :
    (∀ i, a i = b i) ↔ ∀ i, a (i + 1) = b (i + 1) := by
  constructor
  · intro h i; exact h (i + 1)
  · intro h i
    cases i with
    | zero => exact h0
    | succ k => exact h k

theorem firstdiff_shift (a b : ℕ → ℕ) (h0 : a 0 = b 0) :
    (∃ i, (∀ k, k < i → a k = b k) ∧ b i < a i) ↔
      ∃ i, (∀ k, k < i → a (k + 1) = b (k + 1)) ∧ b (i + 1) < a (i + 1) := by
  constructor
  · rintro ⟨i, h1, h2⟩
    cases i with
    | zero => rw [h0] at h2; exact absurd h2 (lt_irrefl _)
    | succ m => exact ⟨m, fun k hk => h1 (k + 1) (Nat.succ_lt_succ hk), h2⟩
  · rintro ⟨i, h1, h2⟩
    refine ⟨i + 1, fun k hk => ?_, h2⟩
    cases k with
    | zero => exact h0
    | succ m => exact h1 m (Nat.lt_of_succ_lt_succ hk)

theorem firstdiff_shift' (a b : ℕ → ℕ) (h0 : a 0 = b 0) :
    (∃ i, (∀ k, k < i → a k = b k) ∧ a i < b i) ↔
      ∃ i, (∀ k, k < i → a (k + 1) = b (k + 1)) ∧ a (i + 1) < b (i + 1) := by
  constructor
  · rintro ⟨i, h1, h2⟩
    cases i with
    | zero => rw [h0] at h2; exact absurd h2 (lt_irrefl _)
    | succ m => exact ⟨m, fun k hk => h1 (k + 1) (Nat.succ_lt_succ hk), h2⟩
  · rintro ⟨i, h1, h2⟩
    refine ⟨i + 1, fun k hk => ?_, h2⟩
    cases k with
    | zero => exact h0
    | succ m => exact h1 m (Nat.lt_of_succ_lt_succ hk)

theorem firstdiff_head (a b : ℕ → ℕ) (h : b 0 < a 0) :
    ∃ i, (∀ k, k < i → a k = b k) ∧ b i < a i :=
  ⟨0, fun k hk => absurd hk (Nat.not_lt_zero k), h⟩

theorem firstdiff_head' (a b : ℕ → ℕ) (h : a 0 < b 0) :
    ∃ i, (∀ k, k < i → a k = b k) ∧ a i < b i :=
  ⟨0, fun k hk => absurd hk (Nat.not_lt_zero k), h⟩

theorem no_firstdiff_of_head_lt (a b : ℕ → ℕ) (h : a 0 < b 0) :
    ¬ ∃ i, (∀ k, k < i → a k = b k) ∧ b i < a i := by
  rintro ⟨i, h1, h2⟩
  cases i with
  | zero => exact absurd h2 (lt_asymm h)
  | succ m => exact absurd (h1 0 (Nat.succ_pos m)) (ne_of_lt h)

theorem no_firstdiff_of_head_lt' (a b : ℕ → ℕ) (h : b 0 < a 0) :
    ¬ ∃ i, (∀ k, k < i → a k = b k) ∧ a i < b i := by
  rintro ⟨i, h1, h2⟩
  cases i with
  | zero => exact absurd h2 (lt_asymm h)
  | succ m => exact absurd (h1 0 (Nat.succ_pos m)) (ne_of_gt h)

theorem not_all_eq_of_head_ne (a b : ℕ → ℕ) (h : a 0 ≠ b 0) :
    ¬ ∀ i, a i = b i := fun hh => h (hh 0)

theorem cmpParts_characterisation (xs ys : List ℕ) :
    (cmpParts xs ys = 0 ↔ ∀ i, padGet xs i = padGet ys i) ∧
    (cmpParts xs ys = 1 ↔
      ∃ i, (∀ k, k < i → padGet xs k = padGet ys k) ∧ padGet ys i < padGet xs i) ∧
    (cmpParts xs ys = -1 ↔
      ∃ i, (∀ k, k < i → padGet xs k = padGet ys k) ∧ padGet xs i < padGet ys i) := by
  induction xs generalizing ys with
  | nil =>
    induction ys with
    | nil => simp [cmpParts]
    | cons y ys ihy =>
      by_cases hy : 0 < y
      · have hc : cmpParts [] (y :: ys) = -1 := by simp [cmpParts, hy, Nat.not_lt_zero]
        refine ⟨?_, ?_, ?_⟩
        · rw [hc]
          exact iff_of_false (by decide) (not_all_eq_of_head_ne _ _ (by simpa using hy.ne))
        · rw [hc]
          exact iff_of_false (by decide) (no_firstdiff_of_head_lt _ _ (by simpa using hy))
        · rw [hc]
          exact iff_of_true rfl (firstdiff_head' _ _ (by simpa using hy))
      · have hy0 : y = 0 := by omega
        subst hy0
        have hc : cmpParts [] (0 :: ys) = cmpParts [] ys := by simp [cmpParts]
        have h0 : padGet ([] : List ℕ) 0 = padGet (0 :: ys) 0 := by simp
        refine ⟨?_, ?_, ?_⟩
        · rw [hc, ihy.1, all_shift _ _ h0]
          simp
        · rw [hc, ihy.2.1, firstdiff_shift _ _ h0]
          simp
        · rw [hc, ihy.2.2, firstdiff_shift' _ _ h0]
          simp
  | cons x xs ihx =>
    cases ys with
    | nil =>
      by_cases hx : 0 < x
      · have hc : cmpParts (x :: xs) [] = 1 := by simp [cmpParts, hx]
        refine ⟨?_, ?_, ?_⟩
        · rw [hc]
          exact iff_of_false (by decide)
            (not_all_eq_of_head_ne _ _ (by simpa using hx.ne'))
        · rw [hc]
          exact iff_of_true rfl (firstdiff_head _ _ (by simpa using hx))
        · rw [hc]
          exact iff_of_false (by decide) (no_firstdiff_of_head_lt' _ _ (by simpa using hx))
      · have hx0 : x = 0 := by omega
        subst hx0
        have hc : cmpParts (0 :: xs) [] = cmpParts xs [] := by simp [cmpParts]
        have h0 : padGet (0 :: xs) 0 = padGet ([] : List ℕ) 0 := by simp
        refine ⟨?_, ?_, ?_⟩
        · rw [hc, (ihx []).1, all_shift _ _ h0]
          simp
        · rw [hc, (ihx []).2.1, firstdiff_shift _ _ h0]
          simp
        · rw [hc, (ihx []).2.2, firstdiff_shift' _ _ h0]
          simp
    | cons y ys =>
      rcases Nat.lt_trichotomy x y with hlt | heq | hgt
      · have hc : cmpParts (x :: xs) (y :: ys) = -1 := by
          simp [cmpParts, hlt, Nat.lt_asymm hlt]
        refine ⟨?_, ?_, ?_⟩
        · rw [hc]
          exact iff_of_false (by decide) (not_all_eq_of_head_ne _ _ (by simpa using hlt.ne))
        · rw [hc]
          exact iff_of_false (by decide) (no_firstdiff_of_head_lt _ _ (by simpa using hlt))
        · rw [hc]
          exact iff_of_true rfl (firstdiff_head' _ _ (by simpa using hlt))
      · subst heq
        have hc : cmpParts (x :: xs) (x :: ys) = cmpParts xs ys := by simp [cmpParts]
        have h0 : padGet (x :: xs) 0 = padGet (x :: ys) 0 := by simp
        refine ⟨?_, ?_, ?_⟩
        · rw [hc, (ihx ys).1, all_shift _ _ h0]
          simp
        · rw [hc, (ihx ys).2.1, firstdiff_shift _ _ h0]
          simp
        · rw [hc, (ihx ys).2.2, firstdiff_shift' _ _ h0]
          simp
      · have hc : cmpParts (x :: xs) (y :: ys) = 1 := by simp [cmpParts, hgt]
        refine ⟨?_, ?_, ?_⟩
        · rw [hc]
          exact iff_of_false (by decide) (not_all_eq_of_head_ne _ _ (by simpa using hgt.ne'))
        · rw [hc]
          exact iff_of_true rfl (firstdiff_head _ _ (by simpa using hgt))
        · rw [hc]
          exact iff_of_false (by decide) (no_firstdiff_of_head_lt' _ _ (by simpa using hgt))

theorem cmpParts_mem (xs ys : List ℕ) :
    cmpParts xs ys = -1 ∨ cmpParts xs ys = 0 ∨ cmpParts xs ys = 1 := by
  induction xs generalizing ys with
  | nil =>
    induction ys with
    | nil => simp [cmpParts]
    | cons y ys ihy =>
      by_cases hy : 0 < y
      · simp [cmpParts, hy, Nat.not_lt_zero]
      · have : y = 0 := by omega
        subst this
        simpa [cmpParts] using ihy
  | cons x xs ihx =>
    cases ys with
    | nil =>
      by_cases hx : 0 < x
      · simp [cmpParts, hx]
      · have : x = 0 := by omega
        subst this
        simpa [cmpParts] using ihx []
    | cons y ys =>
      rcases Nat.lt_trichotomy x y with hlt | heq | hgt
      · simp [cmpParts, hlt, Nat.lt_asymm hlt]
      · subst heq
        simpa [cmpParts] using ihx ys
      · simp [cmpParts, hgt]

end Pkg

/-- C7: compareVersions compares dot-separated numeric components left to
right, padding a missing trailing component with 0 and with no limit on the
component count: the result is always -1, 0 or 1; it is 0 exactly when all
padded components agree, -1 exactly when at the first difference the first
argument's component is lower, and 1 exactly when it is higher; in particular
`compareVersions "1.0.0.1" "1.0.0.2" = -1` and
`compareVersions "1.2" "1.2.0" = 0`. -/
theorem compareVersions_spec :
    (∀ a b : String,
      Pkg.compareVersions a b = -1 ∨ Pkg.compareVersions a b = 0 ∨ Pkg.compareVersions a b = 1) ∧
    (∀ a b : String, (Pkg.compareVersions a b = 0 ↔ ∀ i, Pkg.partAt a i = Pkg.partAt b i)) ∧
    (∀ a b : String, (Pkg.compareVersions a b = -1 ↔
      ∃ i, (∀ k, k < i → Pkg.partAt a k = Pkg.partAt b k) ∧ Pkg.partAt a i < Pkg.partAt b i)) ∧
    (∀ a b : String, (Pkg.compareVersions a b = 1 ↔
      ∃ i, (∀ k, k < i → Pkg.partAt a k = Pkg.partAt b k) ∧ Pkg.partAt b i < Pkg.partAt a i)) ∧
    Pkg.compareVersions "1.0.0.1" "1.0.0.2" = -1 ∧
    Pkg.compareVersions "1.2" "1.2.0" = 0 := by
  refine ⟨fun a b => Pkg.cmpParts_mem _ _,
          fun a b => (Pkg.cmpParts_characterisation _ _).1,
          fun a b => (Pkg.cmpParts_characterisation _ _).2.2,
          fun a b => (Pkg.cmpParts_characterisation _ _).2.1,
          ?_, ?_⟩
  · have h1 : Pkg.verParts "1.0.0.1" = [1, 0, 0, 1] := by decide
    have h2 : Pkg.verParts "1.0.0.2" = [1, 0, 0, 2] := by decide
    rw [Pkg.compareVersions, h1, h2]
    simp [Pkg.cmpParts]
  · have h1 : Pkg.verParts "1.2" = [1, 2] := by decide
    have h2 : Pkg.verParts "1.2.0" = [1, 2, 0] := by decide
    rw [Pkg.compareVersions, h1, h2]
    simp [Pkg.cmpParts]

namespace Pkg
/-! Helper lemmas about single `processDownload` transitions. -/

theorem poll_absent (mkSteps : Option ℚ → String → List Step)
    (updateSizes : List (String × ℚ)) (now : ℤ) (fs : UserFS) (packageName : String) :
    processDownload mkSteps updateSizes now fs packageName none false
      = { message := none, fs := fs, reg := none, persisted := [] } := rfl

theorem poll_mid (mkSteps : Option ℚ → String → List Step)
    (updateSizes : List (String × ℚ)) (now : ℤ) (fs : UserFS) (packageName : String)
    (ds : DownloadState) (h : ds.currentStep < ds.steps.length - 1) :
    processDownload mkSteps updateSizes now fs packageName (some ds) false
      = { message := some (ds.steps.getD ds.currentStep default).message, fs := fs,
          reg := some ds, persisted := [] } := by
  have h1 : ds.currentStep < ds.steps.length := lt_of_lt_of_le h (Nat.sub_le _ _)
  have h2 : ds.currentStep ≠ ds.steps.length - 1 := Nat.ne_of_lt h
  unfold processDownload
  simp [h1, h2]

theorem poll_last_update (mkSteps : Option ℚ → String → List Step)
    (updateSizes : List (String × ℚ)) (now : ℤ) (fs : UserFS) (packageName : String)
    (ds : DownloadState) (hne : ds.steps ≠ [])
    (hlast : ds.currentStep = ds.steps.length - 1)
    (hu : isUpdateName packageName = true) :
    processDownload mkSteps updateSizes now fs packageName (some ds) false
      = { message := some ("System updated to version " ++ ds.targetVersion ++ " ("
            ++ jsOrStr fs.os_branch "stable" ++ " branch)"),
          fs := { fs with os_version := some ds.targetVersion }, reg := none,
          persisted := [{ fs with os_version := some ds.targetVersion }] } := by
  have hlen : 0 < ds.steps.length := List.length_pos.mpr hne
  have h1 : ds.currentStep < ds.steps.length := by omega
  unfold processDownload
  simp [h1, hlast, hu, hlen]

theorem poll_last_pkg (mkSteps : Option ℚ → String → List Step)
    (updateSizes : List (String × ℚ)) (now : ℤ) (fs : UserFS) (packageName : String)
    (ds : DownloadState) (hne : ds.steps ≠ [])
    (hlast : ds.currentStep = ds.steps.length - 1)
    (hu : isUpdateName packageName = false) :
    processDownload mkSteps updateSizes now fs packageName (some ds) false
      = { message := some ("Package " ++ packageName ++ " installed successfully"),
          fs := { fs with pkgs := setPkg fs.pkgs (packageName ++ ".pkg")
                            (pkgContent packageName (jsOrStr fs.os_version "1.0.0")
                              (jsOrStr fs.os_branch "stable")) },
          reg := none,
          persisted := [{ fs with pkgs := setPkg fs.pkgs (packageName ++ ".pkg")
                                    (pkgContent packageName (jsOrStr fs.os_version "1.0.0")
                                      (jsOrStr fs.os_branch "stable")) }] } := by
  have hlen : 0 < ds.steps.length := List.length_pos.mpr hne
  have h1 : ds.currentStep < ds.steps.length := by omega
  unfold processDownload
  simp [h1, hlast, hu, hlen]

theorem isUpdateName_concat (s : String) : isUpdateName ("update-" ++ s) = true := by
  unfold isUpdateName
  rw [String.data_append]
  rw [show (7 : ℕ) = ("update-".data).length from rfl]
  rw [List.take_left]
  simp

theorem ensureBranch_pkgs (fs : UserFS) : (ensureBranch fs).pkgs = fs.pkgs := by
  unfold ensureBranch
  cases fs.os_branch <;> rfl

end Pkg

/-- C5 theorem: a non-initial poll on an active transfer that is not at its
last step returns the current step's message and leaves the registry entry,
the filesystem and the persisted store untouched, for every value of the
clock: the source computes `Date.now()` but never compares it with
`lastUpdate` or `waitMs`, so `currentStep` is never advanced. -/
theorem processDownload_never_advances (mkSteps : Option ℚ → String → List Step)
    (updateSizes : List (String × ℚ)) (now : ℤ) (fs : Pkg.UserFS) (packageName : String)
    (ds : DownloadState) (h : ds.currentStep < ds.steps.length - 1) :
    Pkg.processDownload mkSteps updateSizes now fs packageName (some ds) false
      = { message := some (ds.steps.getD ds.currentStep default).message, fs := fs,
          reg := some ds, persisted := [] } :=
  Pkg.poll_mid mkSteps updateSizes now fs packageName ds h

theorem processDownload_never_advances_witness :
    sampleState.currentStep < sampleState.steps.length - 1 ∧
    Pkg.processDownload (fun _ _ => []) [] 999999 sampleFS "echo" (some sampleState) false
      = { message := some (sampleState.steps.getD sampleState.currentStep default).message,
          fs := sampleFS, reg := some sampleState, persisted := [] } :=
  ⟨by decide,
   processDownload_never_advances (fun _ _ => []) [] 999999 sampleFS "echo" sampleState (by decide)⟩

/-- C6 theorem: the first non-initial poll on a transfer at its last step
applies the terminal side effect exactly once (writes the package record, or
`/sys/os_version` for an update, and persists it) and removes the registry
entry; a second poll finds no active transfer and performs no side effect
(no message, no filesystem change, nothing persisted). -/
theorem processDownload_terminal_once (mkSteps : Option ℚ → String → List Step)
    (updateSizes : List (String × ℚ)) (now now2 : ℤ)
    (fs fs1 : Pkg.UserFS) (packageName : String) (ds : DownloadState)
    (hne : ds.steps ≠ []) (hlast : ds.currentStep = ds.steps.length - 1) :
    (Pkg.processDownload mkSteps updateSizes now fs packageName (some ds) false).reg = none ∧
    (Pkg.processDownload mkSteps updateSizes now fs packageName (some ds) false).persisted
      = [(Pkg.processDownload mkSteps updateSizes now fs packageName (some ds) false).fs] ∧
    (Pkg.isUpdateName packageName = true →
      (Pkg.processDownload mkSteps updateSizes now fs packageName (some ds) false).fs
        = { fs with os_version := some ds.targetVersion }) ∧
    (Pkg.isUpdateName packageName = false →
      (Pkg.processDownload mkSteps updateSizes now fs packageName (some ds) false).fs
        = { fs with pkgs := Pkg.setPkg fs.pkgs (packageName ++ ".pkg")
                      (Pkg.pkgContent packageName (jsOrStr fs.os_version "1.0.0")
                        (jsOrStr fs.os_branch "stable")) }) ∧
    Pkg.processDownload mkSteps updateSizes now2 fs1 packageName none false
      = { message := none, fs := fs1, reg := none, persisted := [] } := by
  by_cases hu : Pkg.isUpdateName packageName
  · rw [Pkg.poll_last_update mkSteps updateSizes now fs packageName ds hne hlast hu]
    refine ⟨rfl, rfl, fun _ => rfl, fun hcontra => absurd hu (by simp [hcontra]), ?_⟩
    exact Pkg.poll_absent mkSteps updateSizes now2 fs1 packageName
  · have hu' : Pkg.isUpdateName packageName = false := by simpa using hu
    rw [Pkg.poll_last_pkg mkSteps updateSizes now fs packageName ds hne hlast hu']
    refine ⟨rfl, rfl, fun hcontra => absurd hcontra hu, fun _ => rfl, ?_⟩
    exact Pkg.poll_absent mkSteps updateSizes now2 fs1 packageName

theorem processDownload_terminal_once_witness :
    (sampleState.steps ≠ []) ∧ (2 = sampleState.steps.length - 1) ∧
    ((Pkg.processDownload (fun _ _ => []) [] 7 sampleFS "echo"
        (some { sampleState with currentStep := 2 }) false).reg = none ∧
     (Pkg.processDownload (fun _ _ => []) [] 7 sampleFS "echo"
        (some { sampleState with currentStep := 2 }) false).persisted
       = [(Pkg.processDownload (fun _ _ => []) [] 7 sampleFS "echo"
        (some { sampleState with currentStep := 2 }) false).fs] ∧
     (Pkg.isUpdateName "echo" = true →
      (Pkg.processDownload (fun _ _ => []) [] 7 sampleFS "echo"
        (some { sampleState with currentStep := 2 }) false).fs
        = { sampleFS with os_version := some ({ sampleState with currentStep := 2 } : DownloadState).targetVersion }) ∧
     (Pkg.isUpdateName "echo" = false →
      (Pkg.processDownload (fun _ _ => []) [] 7 sampleFS "echo"
        (some { sampleState with currentStep := 2 }) false).fs
        = { sampleFS with pkgs := Pkg.setPkg sampleFS.pkgs ("echo" ++ ".pkg")
                            (Pkg.pkgContent "echo" (jsOrStr sampleFS.os_version "1.0.0")
                              (jsOrStr sampleFS.os_branch "stable")) }) ∧
     Pkg.processDownload (fun _ _ => []) [] 8 sampleFS "echo" none false
       = { message := none, fs := sampleFS, reg := none, persisted := [] }) :=
  ⟨by decide, by decide,
   processDownload_terminal_once (fun _ _ => []) [] 7 8 sampleFS sampleFS "echo"
     { sampleState with currentStep := 2 } (by decide) (by decide)⟩

/-- C8 theorem: `pkg install <name>` for a package whose `<name>.pkg` record
already exists returns the already-installed message, leaves the registry
entry exactly as it was, and persists nothing; the in-memory filesystem is
only touched by the command preamble that materialises a missing
`/sys/os_branch` leaf. -/
theorem pkgInstall_already_installed (mkSteps : Option ℚ → String → List Step)
    (updateSizes : List (String × ℚ)) (now : ℤ)
    (fs : Pkg.UserFS) (reg : Option DownloadState) (name content : String)
    (hname : ¬ name = "")
    (hinst : fs.pkgs.lookup (name ++ ".pkg") = some content) :
    Pkg.pkgInstall mkSteps updateSizes now fs reg ["install", name]
      = { message := "pkg: Package '" ++ name ++ "' is already installed.",
          fs := Pkg.ensureBranch fs, reg := reg, persisted := [] } := by
  unfold Pkg.pkgInstall
  simp [hname, Pkg.ensureBranch_pkgs, hinst]

theorem pkgInstall_already_installed_witness :
    (¬ "echo" = "") ∧
    (Pkg.UserFS.mk [("echo.pkg", "x")] (some "1.0.0") (some "stable") none).pkgs.lookup
        ("echo" ++ ".pkg") = some "x" ∧
    Pkg.pkgInstall (fun _ _ => []) [] 3
        (Pkg.UserFS.mk [("echo.pkg", "x")] (some "1.0.0") (some "stable") none) none
        ["install", "echo"]
      = { message := "pkg: Package '" ++ "echo" ++ "' is already installed.",
          fs := Pkg.ensureBranch (Pkg.UserFS.mk [("echo.pkg", "x")] (some "1.0.0") (some "stable") none),
          reg := none, persisted := [] } :=
  ⟨by decide, by decide,
   pkgInstall_already_installed (fun _ _ => []) [] 3
     (Pkg.UserFS.mk [("echo.pkg", "x")] (some "1.0.0") (some "stable") none) none "echo" "x"
     (by decide) (by decide)⟩

/-- C9 theorem: `pkg upgrade --<branch>` flips `/sys/os_branch` to the target
branch and persists that snapshot immediately when the transfer starts, while
`/sys/os_version` still holds the old version in that snapshot; the version
leaf is written (and persisted) only by the poll that completes the update,
and a poll before the last step writes nothing. -/
theorem pkgUpgrade_branch_before_version (mkSteps : Option ℚ → String → List Step)
    (updateSizes : List (String × ℚ)) (now now2 : ℤ)
    (fs fsMid : Pkg.UserFS) (reg : Option DownloadState) (v cb b tv : String)
    (ds2 : DownloadState)
    (hv : fs.os_version = some v) (hcb : fs.os_branch = some cb)
    (hlook : Pkg.osBranches.lookup b = some tv)
    (hup : ¬ (v = tv ∧ cb = b)) :
    (Pkg.pkgUpgrade mkSteps updateSizes now fs reg ["upgrade", "--" ++ b]).persisted
        = [{ fs with os_branch := some b }] ∧
    ({ fs with os_branch := some b } : Pkg.UserFS).os_version = some v ∧
    (Pkg.pkgUpgrade mkSteps updateSizes now fs reg ["upgrade", "--" ++ b]).reg
        = some (Pkg.startUpdateDownload mkSteps updateSizes now tv) ∧
    (Pkg.startUpdateDownload mkSteps updateSizes now tv).targetVersion = tv ∧
    (Pkg.startUpdateDownload mkSteps updateSizes now tv).currentStep = 0 ∧
    Pkg.isUpdateName ("update-" ++ tv) = true ∧
    (ds2.targetVersion = tv → ds2.steps ≠ [] → ds2.currentStep = ds2.steps.length - 1 →
      Pkg.processDownload mkSteps updateSizes now2 fsMid ("update-" ++ tv) (some ds2) false
        = { message := some ("System updated to version " ++ tv ++ " ("
              ++ jsOrStr fsMid.os_branch "stable" ++ " branch)"),
            fs := { fsMid with os_version := some tv }, reg := none,
            persisted := [{ fsMid with os_version := some tv }] }) ∧
    (ds2.currentStep < ds2.steps.length - 1 →
      Pkg.processDownload mkSteps updateSizes now2 fsMid ("update-" ++ tv) (some ds2) false
        = { message := some (ds2.steps.getD ds2.currentStep default).message, fs := fsMid,
            reg := some ds2, persisted := [] }) := by
  have hens : Pkg.ensureBranch fs = fs := by simp [Pkg.ensureBranch, hcb]
  have hpred : ((("--" ++ b).data.take 2 = ['-', '-']) : Prop) := by
    rw [String.data_append, show (2 : ℕ) = ("--".data).length from rfl, List.take_left]
  have hnpred : ¬ (("upgrade".data.take 2 = ['-', '-']) : Prop) := by decide
  have hmk : String.mk (("--" ++ b).data.drop 2) = b := by
    rw [String.data_append, show (2 : ℕ) = ("--".data).length from rfl, List.drop_left]
  have hcmd : Pkg.pkgUpgrade mkSteps updateSizes now fs reg ["upgrade", "--" ++ b]
      = Pkg.pkgUpgradeGo mkSteps updateSizes now fs reg b := by
    unfold Pkg.pkgUpgrade
    rw [hens]
    rw [show (["upgrade", "--" ++ b].findIdx? fun a => decide (a.data.take 2 = ['-', '-']))
        = some 1 from by simp [List.findIdx?, hpred, hnpred]]
    simp only [List.getD_cons_succ, List.getD_cons_zero, hmk, hlook]
  have hgo : Pkg.pkgUpgradeGo mkSteps updateSizes now fs reg b
      = { message :=
            (if cb = "unstable" ∧ b = "stable" ∧ Pkg.compareVersions v tv > 0 then
              "Starting downgrade from " ++ cb ++ " (" ++ v ++ ") to "
                ++ b ++ " (" ++ tv ++ ")..."
            else
              "Starting system " ++ (if v = tv then "switch" else "upgrade")
                ++ " to " ++ tv ++ " (" ++ b ++ " branch)...")
            ++ "\n" ++ ((Pkg.startUpdateDownload mkSteps updateSizes now tv).steps.getD 0 default).message,
          fs := { fs with os_branch := some b },
          reg := some (Pkg.startUpdateDownload mkSteps updateSizes now tv),
          persisted := [{ fs with os_branch := some b }] } := by
    simp only [Pkg.pkgUpgradeGo, hv, hcb, hlook, Option.getD_some, if_neg hup]
  refine ⟨by rw [hcmd, hgo], by simp [hv], by rw [hcmd, hgo], rfl, rfl,
    Pkg.isUpdateName_concat tv, ?_, ?_⟩
  · intro h1 h2 h3
    rw [Pkg.poll_last_update mkSteps updateSizes now2 fsMid ("update-" ++ tv) ds2 h2 h3
      (Pkg.isUpdateName_concat tv), h1]
  · intro h
    exact Pkg.poll_mid mkSteps updateSizes now2 fsMid ("update-" ++ tv) ds2 h

theorem pkgUpgrade_branch_before_version_witness :
    sampleFS.os_version = some "1.0.0" ∧ sampleFS.os_branch = some "stable" ∧
    Pkg.osBranches.lookup "unstable" = some "1.0.0.2" ∧
    (¬ ("1.0.0" = "1.0.0.2" ∧ "stable" = "unstable")) ∧
    ((Pkg.pkgUpgrade (fun _ _ => []) [] 1 sampleFS none ["upgrade", "--" ++ "unstable"]).persisted
        = [{ sampleFS with os_branch := some "unstable" }] ∧
     ({ sampleFS with os_branch := some "unstable" } : Pkg.UserFS).os_version = some "1.0.0" ∧
     (Pkg.pkgUpgrade (fun _ _ => []) [] 1 sampleFS none ["upgrade", "--" ++ "unstable"]).reg
        = some (Pkg.startUpdateDownload (fun _ _ => []) [] 1 "1.0.0.2") ∧
     (Pkg.startUpdateDownload (fun _ _ => []) [] 1 "1.0.0.2").targetVersion = "1.0.0.2" ∧
     (Pkg.startUpdateDownload (fun _ _ => []) [] 1 "1.0.0.2").currentStep = 0 ∧
     Pkg.isUpdateName ("update-" ++ "1.0.0.2") = true ∧
     (sampleUpdState.targetVersion = "1.0.0.2" → sampleUpdState.steps ≠ [] →
      sampleUpdState.currentStep = sampleUpdState.steps.length - 1 →
      Pkg.processDownload (fun _ _ => []) [] 2 { sampleFS with os_branch := some "unstable" }
          ("update-" ++ "1.0.0.2") (some sampleUpdState) false
        = { message := some ("System updated to version " ++ "1.0.0.2" ++ " ("
              ++ jsOrStr ({ sampleFS with os_branch := some "unstable" } : Pkg.UserFS).os_branch "stable"
              ++ " branch)"),
            fs := { { sampleFS with os_branch := some "unstable" } with os_version := some "1.0.0.2" },
            reg := none,
            persisted := [{ { sampleFS with os_branch := some "unstable" } with
                            os_version := some "1.0.0.2" }] }) ∧
     (sampleUpdState.currentStep < sampleUpdState.steps.length - 1 →
      Pkg.processDownload (fun _ _ => []) [] 2 { sampleFS with os_branch := some "unstable" }
          ("update-" ++ "1.0.0.2") (some sampleUpdState) false
        = { message := some ((sampleUpdState.steps.getD sampleUpdState.currentStep default).message),
            fs := { sampleFS with os_branch := some "unstable" },
            reg := some sampleUpdState, persisted := [] })) :=
  ⟨rfl, rfl, by decide, by decide,
   pkgUpgrade_branch_before_version (fun _ _ => []) [] 1 2 sampleFS
     { sampleFS with os_branch := some "unstable" } none "1.0.0" "stable" "unstable" "1.0.0.2"
     sampleUpdState rfl rfl (by decide) (by decide)⟩

/-- C10 theorem: when the recomputed full-package duration is 0, under 100 ms,
or the simulation is disabled, `recalculateDownloadSteps` fast-forwards
`currentStep` to the last index of the existing plan without touching any
step, and the next non-initial poll then applies the terminal side effect
(package record, or `/sys/os_version` for an update) and clears the registry
entry. -/
theorem recalculate_instant_fast_forward (config : NetworkConfig) (packageName : String)
    (size j : ℚ) (u : ℕ → ℚ) (ds : DownloadState)
    (mkSteps : Option ℚ → String → List Step) (updateSizes : List (String × ℚ))
    (now : ℤ) (fs : Pkg.UserFS)
    (hk : ds.currentStep < ds.steps.length)
    (hinst : (Part001.calculateDownloadTime config size j).time = 0 ∨ config.enabled = false
      ∨ (Part001.calculateDownloadTime config size j).time < 100) :
    Part001.recalculateDownloadSteps config packageName size j u (some ds)
        = some { ds with currentStep := ds.steps.length - 1 } ∧
    (Pkg.isUpdateName packageName = false →
      Pkg.processDownload mkSteps updateSizes now fs packageName
          (some { ds with currentStep := ds.steps.length - 1 }) false
        = { message := some ("Package " ++ packageName ++ " installed successfully"),
            fs := { fs with pkgs := Pkg.setPkg fs.pkgs (packageName ++ ".pkg")
                              (Pkg.pkgContent packageName (jsOrStr fs.os_version "1.0.0")
                                (jsOrStr fs.os_branch "stable")) },
            reg := none,
            persisted := [{ fs with pkgs := Pkg.setPkg fs.pkgs (packageName ++ ".pkg")
                                      (Pkg.pkgContent packageName (jsOrStr fs.os_version "1.0.0")
                                        (jsOrStr fs.os_branch "stable")) }] }) ∧
    (Pkg.isUpdateName packageName = true →
      Pkg.processDownload mkSteps updateSizes now fs packageName
          (some { ds with currentStep := ds.steps.length - 1 }) false
        = { message := some ("System updated to version " ++ ds.targetVersion ++ " ("
              ++ jsOrStr fs.os_branch "stable" ++ " branch)"),
            fs := { fs with os_version := some ds.targetVersion }, reg := none,
            persisted := [{ fs with os_version := some ds.targetVersion }] }) := by
  have hne : ds.steps ≠ [] := List.ne_nil_of_length_pos (lt_of_le_of_lt (Nat.zero_le _) hk)
  refine ⟨?_, ?_, ?_⟩
  · simp only [Part001.recalculateDownloadSteps]
    rw [if_neg (not_le.mpr hk), if_pos hinst]
  · intro hu
    exact Pkg.poll_last_pkg mkSteps updateSizes now fs packageName _ hne rfl hu
  · intro hu
    exact Pkg.poll_last_update mkSteps updateSizes now fs packageName _ hne rfl hu

theorem recalculate_instant_fast_forward_witness :
    (sampleState.currentStep < sampleState.steps.length) ∧
    ((Part001.calculateDownloadTime ⟨500, 20, 0, 0, false⟩ 472 0).time = 0 ∨
      (⟨500, 20, 0, 0, false⟩ : NetworkConfig).enabled = false ∨
      (Part001.calculateDownloadTime ⟨500, 20, 0, 0, false⟩ 472 0).time < 100) ∧
    (Part001.recalculateDownloadSteps ⟨500, 20, 0, 0, false⟩ "echo" 472 0 (fun _ => 0)
        (some sampleState)
        = some { sampleState with currentStep := sampleState.steps.length - 1 } ∧
     (Pkg.isUpdateName "echo" = false →
      Pkg.processDownload (fun _ _ => []) [] 5 sampleFS "echo"
          (some { sampleState with currentStep := sampleState.steps.length - 1 }) false
        = { message := some ("Package " ++ "echo" ++ " installed successfully"),
            fs := { sampleFS with pkgs := Pkg.setPkg sampleFS.pkgs ("echo" ++ ".pkg")
                                            (Pkg.pkgContent "echo" (jsOrStr sampleFS.os_version "1.0.0")
                                              (jsOrStr sampleFS.os_branch "stable")) },
            reg := none,
            persisted := [{ sampleFS with pkgs := Pkg.setPkg sampleFS.pkgs ("echo" ++ ".pkg")
                                                    (Pkg.pkgContent "echo" (jsOrStr sampleFS.os_version "1.0.0")
                                                      (jsOrStr sampleFS.os_branch "stable")) }] }) ∧
     (Pkg.isUpdateName "echo" = true →
      Pkg.processDownload (fun _ _ => []) [] 5 sampleFS "echo"
          (some { sampleState with currentStep := sampleState.steps.length - 1 }) false
        = { message := some ("System updated to version " ++ sampleState.targetVersion ++ " ("
              ++ jsOrStr sampleFS.os_branch "stable" ++ " branch)"),
            fs := { sampleFS with os_version := some sampleState.targetVersion }, reg := none,
            persisted := [{ sampleFS with os_version := some sampleState.targetVersion }] })) :=
  ⟨by decide, Or.inr (Or.inl rfl),
   recalculate_instant_fast_forward ⟨500, 20, 0, 0, false⟩ "echo" 472 0 (fun _ => 0) sampleState
     (fun _ _ => []) [] 5 sampleFS (by decide) (Or.inr (Or.inl rfl))⟩

/-- C1 theorem: when the profile is disabled the computed duration is 0
regardless of size; otherwise the duration is
`round((max(base, min(1000, sizeKB)) + latencyMs + j) * (1 + packetLossPct/100))`
with `base = sizeKB*8*1024 / (speedMbps*1e6) * 1000` and `j` the jitter draw
(`j = 0` when `jitterMs = 0`). -/
theorem part001_calculateDownloadTime_formula (config : NetworkConfig) (sizeKB j : ℚ)
    (hsize : 0 < sizeKB) (hjit : 0 ≤ config.jitter) (hj : config.jitter = 0 → j = 0)
    (hloss : 0 ≤ config.packetLoss) :
    (Part001.calculateDownloadTime config sizeKB j).time =
      if config.enabled = false then 0
      else (jsRound ((max (sizeKB * 8 * 1024 / (config.speed * 1000000) * 1000) (min 1000 sizeKB)
        + config.latency + j) * (1 + config.packetLoss / 100)) : ℚ) := by
  unfold Part001.calculateDownloadTime
  rcases config with ⟨s, lat, loss, jit, en⟩
  simp only at hjit hj hloss ⊢
  cases en with
  | false => simp
  | true =>
    simp only [if_neg (by decide : ¬ (true = false))]
    rcases lt_or_eq_of_le hjit with hj1 | hj0
    · rcases lt_or_eq_of_le hloss with hl1 | hl0
      · rw [if_pos hl1, if_pos hj1, max_comm (min (1000 : ℚ) sizeKB)]
      · have hl0' : loss = 0 := hl0.symm
        subst hl0'
        rw [if_neg (lt_irrefl (0 : ℚ)), if_pos hj1, max_comm (min (1000 : ℚ) sizeKB)]
        norm_num
    · have hj' : j = 0 := hj hj0.symm
      have hj0' : jit = 0 := hj0.symm
      subst hj'
      subst hj0'
      rcases lt_or_eq_of_le hloss with hl1 | hl0
      · rw [if_pos hl1, if_neg (lt_irrefl (0 : ℚ)), max_comm (min (1000 : ℚ) sizeKB)]
        norm_num
      · have hl0' : loss = 0 := hl0.symm
        subst hl0'
        rw [if_neg (lt_irrefl (0 : ℚ)), if_neg (lt_irrefl (0 : ℚ)),
          max_comm (min (1000 : ℚ) sizeKB)]
        norm_num

theorem part001_calculateDownloadTime_formula_witness :
    (0 : ℚ) < 472 ∧ (0 : ℚ) ≤ DEFAULT_CONFIG.jitter ∧ (0 : ℚ) ≤ DEFAULT_CONFIG.packetLoss ∧
    ((Part001.calculateDownloadTime DEFAULT_CONFIG 472 0).time =
      if DEFAULT_CONFIG.enabled = false then 0
      else (jsRound ((max (472 * 8 * 1024 / (DEFAULT_CONFIG.speed * 1000000) * 1000)
        (min 1000 472) + DEFAULT_CONFIG.latency + 0) * (1 + DEFAULT_CONFIG.packetLoss / 100)) : ℚ)) :=
  ⟨by norm_num, by norm_num [DEFAULT_CONFIG], by norm_num [DEFAULT_CONFIG],
    part001_calculateDownloadTime_formula DEFAULT_CONFIG 472 0 (by norm_num)
      (by norm_num [DEFAULT_CONFIG]) (fun _ => rfl) (by norm_num [DEFAULT_CONFIG])⟩

theorem plan_invariants_of_progress (f : ℕ → Step) (n : ℕ) (hn : n ≠ 0)
    (hlastp : (f (n - 1)).progress = 100) (hlastc : (f (n - 1)).complete = true)
    (hmono : ∀ i, i + 1 < n → (f i).progress ≤ (f (i + 1)).progress)
    (hstrict : ∀ i, i + 1 < n - 1 → (f i).progress < (f (i + 1)).progress) :
    ((List.range n).map f ≠ []) ∧
    (((List.range n).map f).getLast?.map Step.progress = some 100) ∧
    (((List.range n).map f).getLast?.map Step.complete = some true) ∧
    ((List.range n).map f).Chain' (fun a b => a.progress ≤ b.progress) ∧
    ((List.range n).map f).dropLast.Chain' (fun a b => a.progress < b.progress) := by
  have hlast : ((List.range n).map f).getLast? = some (f (n - 1)) := by
    obtain ⟨m, rfl⟩ := Nat.exists_eq_succ_of_ne_zero hn
    rw [List.range_succ, List.map_append]
    simp
  have hdl : ((List.range n).map f).dropLast = (List.range (n - 1)).map f := by
    cases n with
    | zero => simp
    | succ m =>
      rw [List.range_succ, List.map_append]
      simp
  refine ⟨?_, ?_, ?_, ?_, ?_⟩
  · simp [List.range_eq_nil, hn]
  · rw [hlast, Option.map_some', hlastp]
  · rw [hlast, Option.map_some', hlastc]
  · rw [List.chain'_map]
    cases n with
    | zero => simp
    | succ m =>
      rw [List.chain'_range_succ]
      intro i hi
      exact hmono i (Nat.succ_lt_succ hi)
  · rw [hdl, List.chain'_map]
    cases hm : n - 1 with
    | zero => simp
    | succ k =>
      rw [List.chain'_range_succ]
      intro i hi
      exact hstrict i (by omega)

theorem network_size_pos_of_not_instant (config : NetworkConfig) (size j : ℚ)
    (hsp : 0 < config.speed)
    (ht : ¬ (Network.calculateDownloadTime config size j).time < 100) :
    0 < size := by
  by_contra hs
  push_neg at hs
  apply ht
  have hD : (0 : ℚ) < config.speed * 1000000 := by positivity
  have h8 : size * 8 * 1024 ≤ 0 := by nlinarith
  have h9 : size * 8 * 1024 / (config.speed * 1000000) ≤ 0 :=
    div_nonpos_of_nonpos_of_nonneg h8 (le_of_lt hD)
  have h30 : size * 8 * 1024 / (config.speed * 1000000) * 1000 < 30 := by nlinarith
  unfold Network.calculateDownloadTime
  by_cases hen : config.enabled = false
  · rw [if_pos hen]
    norm_num
  · rw [if_neg hen]
    dsimp only
    rw [if_pos h30]
    norm_num

/-- C2 candidate -/
theorem createDownloadSteps_plan_invariants (config : NetworkConfig) (size : ℚ)
    (packageName : String) (j : ℚ) (u : ℕ → ℚ) (hsp : 0 < config.speed) :
    (Network.createDownloadSteps config size packageName j u ≠ []) ∧
    ((Network.createDownloadSteps config size packageName j u).getLast?.map Step.progress
      = some 100) ∧
    ((Network.createDownloadSteps config size packageName j u).getLast?.map Step.complete
      = some true) ∧
    (Network.createDownloadSteps config size packageName j u).Chain'
      (fun a b => a.progress ≤ b.progress) ∧
    (Network.createDownloadSteps config size packageName j u).dropLast.Chain'
      (fun a b => a.progress < b.progress) := by
  have hsizeEq : (Network.calculateDownloadTime config size j).size = size := by
    unfold Network.calculateDownloadTime
    dsimp only
    split_ifs <;> rfl
  simp only [Network.createDownloadSteps, hsizeEq]
  by_cases hinst : (Network.calculateDownloadTime config size j).time = 0
      ∨ config.enabled = false ∨ (Network.calculateDownloadTime config size j).time < 100
  · rw [if_pos hinst]
    exact ⟨by simp, by simp, by simp, by simp, by simp⟩
  · rw [if_neg hinst]
    push_neg at hinst
    obtain ⟨ht0, hen, ht100⟩ := hinst
    have hsize : 0 < size :=
      network_size_pos_of_not_instant config size j hsp (not_lt.mpr ht100)
    set t := (Network.calculateDownloadTime config size j).time with hT
    have htpos : (0 : ℚ) < t := by linarith
    set n : ℕ := (max 3 ⌈t / 1500⌉).toNat with hn
    have hn3 : 3 ≤ n := by
      rw [hn]
      have h1 : ((3 : ℤ)).toNat ≤ (max 3 ⌈t / 1500⌉).toNat :=
        Int.toNat_le_toNat (le_max_left _ _)
      omega
    have hidx : ∀ i : ℕ, i + 1 < n - 1 → (i : ℚ) * 1500 < t := by
      intro i hi
      rcases le_or_lt ⌈t / 1500⌉ 3 with hle | hgt
      · have hneq : n = 3 := by
          rw [hn, max_eq_left hle]
          rfl
        have hizero : i = 0 := by omega
        subst hizero
        simpa using htpos
      · have hnn : (n : ℤ) = ⌈t / 1500⌉ := by
          rw [hn, max_eq_right (le_of_lt hgt), Int.toNat_of_nonneg (by omega)]
        have h1 : (i : ℤ) ≤ (n : ℤ) - 3 := by omega
        have h2 : (n : ℚ) < t / 1500 + 1 := by
          have h2' : ((n : ℤ) : ℚ) < t / 1500 + 1 := by
            rw [hnn]
            exact Int.ceil_lt_add_one (t / 1500)
          exact_mod_cast h2'
        have h3 : (i : ℚ) ≤ (n : ℚ) - 3 := by exact_mod_cast h1
        have h4 : (i : ℚ) < t / 1500 := by linarith
        calc (i : ℚ) * 1500 < (t / 1500) * 1500 := by
              exact mul_lt_mul_of_pos_right h4 (by norm_num)
          _ = t := by field_simp
    apply plan_invariants_of_progress
    · omega
    · dsimp only
      rw [if_pos rfl, div_self (ne_of_gt hsize)]
      norm_num
    · dsimp only
      simp
    · intro i hi
      dsimp only
      have hi1 : i ≠ n - 1 := by omega
      rw [if_neg hi1]
      by_cases hil : i + 1 = n - 1
      · rw [if_pos hil, div_self (ne_of_gt hsize)]
        have hle1 : min size (size / t * ((i : ℚ) * 1500)) / size ≤ 1 := by
          rw [div_le_one hsize]
          exact min_le_left _ _
        nlinarith
      · rw [if_neg hil]
        push_cast
        have hmin : min size (size / t * ((i : ℚ) * 1500))
            ≤ min size (size / t * (((i : ℚ) + 1) * 1500)) := by
          apply min_le_min le_rfl
          apply mul_le_mul_of_nonneg_left ?_ (by positivity)
          nlinarith
        gcongr
    · intro i hi
      dsimp only
      have hi1 : i ≠ n - 1 := by omega
      have hi2 : i + 1 ≠ n - 1 := by omega
      rw [if_neg hi1, if_neg hi2]
      push_cast
      have hkey : (i : ℚ) * 1500 < t := hidx i hi
      have huncapped : size / t * ((i : ℚ) * 1500) < size := by
        have h1 : (i : ℚ) * 1500 / t < 1 := (div_lt_one htpos).mpr hkey
        calc size / t * ((i : ℚ) * 1500) = size * ((i : ℚ) * 1500 / t) := by ring
          _ < size * 1 := by exact mul_lt_mul_of_pos_left h1 hsize
          _ = size := mul_one size
      rw [min_eq_right (le_of_lt huncapped)]
      by_cases hcap : size / t * (((i : ℚ) + 1) * 1500) ≤ size
      · rw [min_eq_right hcap]
        have hlt : size / t * ((i : ℚ) * 1500) < size / t * (((i : ℚ) + 1) * 1500) := by
          apply mul_lt_mul_of_pos_left ?_ (by positivity)
          nlinarith
        gcongr
      · rw [min_eq_left (le_of_lt (not_le.mp hcap)), div_self (ne_of_gt hsize)]
        have h1 : size / t * ((i : ℚ) * 1500) / size < 1 := (div_lt_one hsize).mpr huncapped
        nlinarith

theorem part001_example_time :
    (Part001.calculateDownloadTime DEFAULT_CONFIG 472 0).time = 492 := by
  unfold Part001.calculateDownloadTime DEFAULT_CONFIG
  norm_num [jsRound, min_def, max_def]

theorem part001_example_steps :
    (Part001.createDownloadSteps DEFAULT_CONFIG 472 "echo" 0).length = 1 := by
  have hceil : ⌈(492 : ℚ) / 1500⌉ = 1 := by norm_num [Int.ceil_eq_iff]
  simp only [Part001.createDownloadSteps, part001_example_time]
  rw [if_neg (by norm_num [DEFAULT_CONFIG])]
  rw [List.length_map, List.length_range, hceil]
  rfl

theorem network_example_time :
    (Network.calculateDownloadTime DEFAULT_CONFIG 472 0).time = 0 := by
  unfold Network.calculateDownloadTime DEFAULT_CONFIG
  norm_num

theorem network_example_steps :
    (Network.createDownloadSteps DEFAULT_CONFIG 472 "echo" 0 (fun _ => 0)).length = 1 := by
  simp only [Network.createDownloadSteps, network_example_time]
  norm_num

theorem createDownloadSteps_plan_invariants_witness :
    (0 : ℚ) < DEFAULT_CONFIG.speed ∧
    ((Network.createDownloadSteps DEFAULT_CONFIG 472 "echo" 0 (fun _ => 0) ≠ []) ∧
     ((Network.createDownloadSteps DEFAULT_CONFIG 472 "echo" 0 (fun _ => 0)).getLast?.map
        Step.progress = some 100) ∧
     ((Network.createDownloadSteps DEFAULT_CONFIG 472 "echo" 0 (fun _ => 0)).getLast?.map
        Step.complete = some true) ∧
     (Network.createDownloadSteps DEFAULT_CONFIG 472 "echo" 0 (fun _ => 0)).Chain'
       (fun a b => a.progress ≤ b.progress) ∧
     (Network.createDownloadSteps DEFAULT_CONFIG 472 "echo" 0 (fun _ => 0)).dropLast.Chain'
       (fun a b => a.progress < b.progress)) :=
  ⟨by norm_num [DEFAULT_CONFIG],
   createDownloadSteps_plan_invariants DEFAULT_CONFIG 472 "echo" 0 (fun _ => 0)
     (by norm_num [DEFAULT_CONFIG])⟩

/-- C3 counterexample: the spec's 472 KB example does not produce a 3-step
plan in either module: with the proportional-floor converter the duration is
492 ms but the co-located synthesizer (no minimum-3 rule) emits exactly one
step, and the min-3 synthesizer's own converter treats 472 KB at 500 Mbps as
instant, also yielding a single step. -/
theorem example_472KB_single_step_not_three :
    (Part001.calculateDownloadTime DEFAULT_CONFIG 472 0).time = 492 ∧
    (Part001.createDownloadSteps DEFAULT_CONFIG 472 "echo" 0).length = 1 ∧
    (Network.calculateDownloadTime DEFAULT_CONFIG 472 0).time = 0 ∧
    (Network.createDownloadSteps DEFAULT_CONFIG 472 "echo" 0 (fun _ => 0)).length = 1 ∧
    ¬ (Part001.createDownloadSteps DEFAULT_CONFIG 472 "echo" 0).length = 3 ∧
    ¬ (Network.createDownloadSteps DEFAULT_CONFIG 472 "echo" 0 (fun _ => 0)).length = 3 :=
  ⟨part001_example_time, part001_example_steps, network_example_time, network_example_steps,
   by simp [part001_example_steps], by simp [network_example_steps]⟩

/-- C3 (amended): for every enabled profile whose computed duration is at
least 100 ms the min-3 synthesizer of `network.js` emits exactly
`max(3, ceil(durationMs/1500))` steps; the 472 KB / default-profile example,
however, yields a 492 ms duration under the proportional-floor converter and
exactly 1 step from the synthesizer co-located with it (which has no
minimum-3 rule). -/
theorem networkJs_stepcount_rule_and_corrected_example :
    (∀ (config : NetworkConfig) (size : ℚ) (packageName : String) (j : ℚ) (u : ℕ → ℚ),
      config.enabled = true →
      100 ≤ (Network.calculateDownloadTime config size j).time →
      (Network.createDownloadSteps config size packageName j u).length
        = (max 3 ⌈(Network.calculateDownloadTime config size j).time / 1500⌉).toNat) ∧
    (Part001.calculateDownloadTime DEFAULT_CONFIG 472 0).time = 492 ∧
    (Part001.createDownloadSteps DEFAULT_CONFIG 472 "echo" 0).length = 1 := by
  refine ⟨?_, part001_example_time, part001_example_steps⟩
  intro config size packageName j u hen ht
  have hcond : ¬ ((Network.calculateDownloadTime config size j).time = 0
      ∨ config.enabled = false ∨ (Network.calculateDownloadTime config size j).time < 100) := by
    push_neg
    exact ⟨ne_of_gt (by linarith), by simp [hen], ht⟩
  simp only [Network.createDownloadSteps]
  rw [if_neg hcond, List.length_map, List.length_range]

theorem networkJs_stepcount_rule_witness :
    ((⟨1, 0, 0, 0, true⟩ : NetworkConfig).enabled = true) ∧
    (100 ≤ (Network.calculateDownloadTime ⟨1, 0, 0, 0, true⟩ 8400 0).time) ∧
    ((Network.createDownloadSteps ⟨1, 0, 0, 0, true⟩ 8400 "edit" 0 (fun _ => 0)).length
      = (max 3 ⌈(Network.calculateDownloadTime ⟨1, 0, 0, 0, true⟩ 8400 0).time / 1500⌉).toNat) :=
  ⟨rfl, by unfold Network.calculateDownloadTime; norm_num [jsRound],
   networkJs_stepcount_rule_and_corrected_example.1 ⟨1, 0, 0, 0, true⟩ 8400 "edit" 0 (fun _ => 0)
     rfl (by unfold Network.calculateDownloadTime; norm_num [jsRound])⟩

theorem tail_spec_of_progress (f : ℕ → Step) (n : ℕ) (hn : n ≠ 0)
    (hlastp : (f (n - 1)).progress = 100) (hlastc : (f (n - 1)).complete = true)
    (hmono : ∀ i, i + 1 < n → (f i).progress ≤ (f (i + 1)).progress) :
    ((List.range n).map f ≠ []) ∧
    ((List.range n).map f).Chain' (fun a b => a.progress ≤ b.progress) ∧
    (((List.range n).map f).getLast?.map Step.progress = some 100) ∧
    (((List.range n).map f).getLast?.map Step.complete = some true) := by
  have hlast : ((List.range n).map f).getLast? = some (f (n - 1)) := by
    obtain ⟨m, rfl⟩ := Nat.exists_eq_succ_of_ne_zero hn
    rw [List.range_succ, List.map_append]
    simp
  refine ⟨?_, ?_, ?_, ?_⟩
  · simp [List.range_eq_nil, hn]
  · rw [List.chain'_map]
    cases n with
    | zero => simp
    | succ m =>
      rw [List.chain'_range_succ]
      intro i hi
      exact hmono i (Nat.succ_lt_succ hi)
  · rw [hlast, Option.map_some', hlastp]
  · rw [hlast, Option.map_some', hlastc]

/-- C4 theorem: recalculation is the identity on an absent or finished state;
on an active state with an enabled, at-least-100 ms recomputed duration it
keeps `steps[0..currentStep]` byte-for-byte and appends a non-empty tail whose
progress is non-decreasing and ends complete at 100, with no minimum-of-3
rule: a recomputed remainder of at most one 1500 ms cadence interval yields
exactly one tail step. -/
theorem recalculateDownloadSteps_spec (config : NetworkConfig) (packageName : String)
    (size j : ℚ) (u : ℕ → ℚ) (ds : DownloadState) :
    (Part001.recalculateDownloadSteps config packageName size j u none = none) ∧
    (ds.steps.length ≤ ds.currentStep →
      Part001.recalculateDownloadSteps config packageName size j u (some ds) = some ds) ∧
    (ds.currentStep < ds.steps.length →
     config.enabled = true →
     100 ≤ (Part001.calculateDownloadTime config size j).time →
     0 < size →
     0 ≤ (ds.steps.getD ds.currentStep default).progress →
     (ds.steps.getD ds.currentStep default).progress ≤ 100 →
     ∃ tail : List Step,
       Part001.recalculateDownloadSteps config packageName size j u (some ds)
         = some { ds with steps := ds.steps.take (ds.currentStep + 1) ++ tail } ∧
       tail ≠ [] ∧
       tail.Chain' (fun a b => a.progress ≤ b.progress) ∧
       tail.getLast?.map Step.progress = some 100 ∧
       tail.getLast?.map Step.complete = some true ∧
       (max 100 ((size - size * (ds.steps.getD ds.currentStep default).progress / 100)
           * 8 * 1024 / (config.speed * 1000000) * 1000) ≤ 1500 → tail.length = 1)) := by
  refine ⟨rfl, ?_, ?_⟩
  · intro hfin
    simp only [Part001.recalculateDownloadSteps]
    rw [if_pos hfin]
  · intro hk hen ht hsize hp0 hp100
    have hcond : ¬ ((Part001.calculateDownloadTime config size j).time = 0
        ∨ config.enabled = false ∨ (Part001.calculateDownloadTime config size j).time < 100) := by
      push_neg
      exact ⟨ne_of_gt (by linarith), by simp [hen], ht⟩
    simp only [Part001.recalculateDownloadSteps]
    rw [if_neg (not_le.mpr hk), if_neg hcond]
    set p := (ds.steps.getD ds.currentStep default).progress with hp
    set rem := size - size * p / 100 with hrem
    set remT := max 100 ((size - size * p / 100) * 8 * 1024
      / (config.speed * 1000000) * 1000) with hremT
    set m : ℕ := (max 1 ⌈remT / 1500⌉).toNat with hm
    have hm0 : m ≠ 0 := by
      rw [hm]
      have h1 : ((1 : ℤ)).toNat ≤ (max 1 ⌈remT / 1500⌉).toNat :=
        Int.toNat_le_toNat (le_max_left _ _)
      omega
    have hrem0 : (0 : ℚ) ≤ rem := by
      rw [hrem]
      nlinarith
    have hremT0 : (0 : ℚ) < remT := by
      rw [hremT]
      exact lt_of_lt_of_le (by norm_num) (le_max_left _ _)
    refine ⟨_, rfl, ?rest⟩
    case rest =>
      refine ⟨?_, ?_, ?_, ?_, ?_⟩ <;>
        [skip; skip; skip; skip;
         (intro hle
          rw [List.length_map, List.length_range, hm]
          have hceil : ⌈remT / 1500⌉ = 1 := by
            rw [Int.ceil_eq_iff]
            constructor
            · push_cast
              have hq : (0 : ℚ) < remT / 1500 := div_pos hremT0 (by norm_num)
              linarith
            · push_cast
              rw [div_le_one (by norm_num : (0 : ℚ) < 1500)]
              exact hle
          rw [hceil]
          rfl)] <;>
      · first
        | exact (tail_spec_of_progress _ m hm0
            (by
              dsimp only
              rw [if_pos rfl, hrem]
              have hsum : size * p / 100 + (size - size * p / 100) = size := by ring
              rw [hsum, div_self (ne_of_gt hsize)]
              norm_num)
            (by
              dsimp only
              simp)
            (by
              intro i hi
              dsimp only
              have hi1 : i ≠ m - 1 := by omega
              rw [if_neg hi1]
              by_cases hil : i + 1 = m - 1
              · rw [if_pos hil]
                have hA : min rem (rem / remT * ((i : ℚ) * 1500)) ≤ rem := min_le_left _ _
                gcongr
              · rw [if_neg hil]
                push_cast
                have hA : min rem (rem / remT * ((i : ℚ) * 1500))
                    ≤ min rem (rem / remT * (((i : ℚ) + 1) * 1500)) := by
                  apply min_le_min le_rfl
                  apply mul_le_mul_of_nonneg_left ?_ (div_nonneg hrem0 (le_of_lt hremT0))
                  nlinarith
                gcongr)).1
        | exact (tail_spec_of_progress _ m hm0
            (by
              dsimp only
              rw [if_pos rfl, hrem]
              have hsum : size * p / 100 + (size - size * p / 100) = size := by ring
              rw [hsum, div_self (ne_of_gt hsize)]
              norm_num)
            (by
              dsimp only
              simp)
            (by
              intro i hi
              dsimp only
              have hi1 : i ≠ m - 1 := by omega
              rw [if_neg hi1]
              by_cases hil : i + 1 = m - 1
              · rw [if_pos hil]
                have hA : min rem (rem / remT * ((i : ℚ) * 1500)) ≤ rem := min_le_left _ _
                gcongr
              · rw [if_neg hil]
                push_cast
                have hA : min rem (rem / remT * ((i : ℚ) * 1500))
                    ≤ min rem (rem / remT * (((i : ℚ) + 1) * 1500)) := by
                  apply min_le_min le_rfl
                  apply mul_le_mul_of_nonneg_left ?_ (div_nonneg hrem0 (le_of_lt hremT0))
                  nlinarith
                gcongr)).2.1
        | exact (tail_spec_of_progress _ m hm0
            (by
              dsimp only
              rw [if_pos rfl, hrem]
              have hsum : size * p / 100 + (size - size * p / 100) = size := by ring
              rw [hsum, div_self (ne_of_gt hsize)]
              norm_num)
            (by
              dsimp only
              simp)
            (by
              intro i hi
              dsimp only
              have hi1 : i ≠ m - 1 := by omega
              rw [if_neg hi1]
              by_cases hil : i + 1 = m - 1
              · rw [if_pos hil]
                have hA : min rem (rem / remT * ((i : ℚ) * 1500)) ≤ rem := min_le_left _ _
                gcongr
              · rw [if_neg hil]
                push_cast
                have hA : min rem (rem / remT * ((i : ℚ) * 1500))
                    ≤ min rem (rem / remT * (((i : ℚ) + 1) * 1500)) := by
                  apply min_le_min le_rfl
                  apply mul_le_mul_of_nonneg_left ?_ (div_nonneg hrem0 (le_of_lt hremT0))
                  nlinarith
                gcongr)).2.2.1
        | exact (tail_spec_of_progress _ m hm0
            (by
              dsimp only
              rw [if_pos rfl, hrem]
              have hsum : size * p / 100 + (size - size * p / 100) = size := by ring
              rw [hsum, div_self (ne_of_gt hsize)]
              norm_num)
            (by
              dsimp only
              simp)
            (by
              intro i hi
              dsimp only
              have hi1 : i ≠ m - 1 := by omega
              rw [if_neg hi1]
              by_cases hil : i + 1 = m - 1
              · rw [if_pos hil]
                have hA : min rem (rem / remT * ((i : ℚ) * 1500)) ≤ rem := min_le_left _ _
                gcongr
              · rw [if_neg hil]
                push_cast
                have hA : min rem (rem / remT * ((i : ℚ) * 1500))
                    ≤ min rem (rem / remT * (((i : ℚ) + 1) * 1500)) := by
                  apply min_le_min le_rfl
                  apply mul_le_mul_of_nonneg_left ?_ (div_nonneg hrem0 (le_of_lt hremT0))
                  nlinarith
                gcongr)).2.2.2

theorem recalculateDownloadSteps_spec_witness :
    (sampleState.currentStep < sampleState.steps.length) ∧
    (DEFAULT_CONFIG.enabled = true) ∧
    (100 ≤ (Part001.calculateDownloadTime DEFAULT_CONFIG 472 0).time) ∧
    ((0 : ℚ) < 472) ∧
    (0 ≤ (sampleState.steps.getD sampleState.currentStep default).progress) ∧
    ((sampleState.steps.getD sampleState.currentStep default).progress ≤ 100) ∧
    (∃ tail : List Step,
      Part001.recalculateDownloadSteps DEFAULT_CONFIG "echo" 472 0 (fun _ => 0) (some sampleState)
        = some { sampleState with
                 steps := sampleState.steps.take (sampleState.currentStep + 1) ++ tail } ∧
      tail ≠ [] ∧
      tail.Chain' (fun a b => a.progress ≤ b.progress) ∧
      tail.getLast?.map Step.progress = some 100 ∧
      tail.getLast?.map Step.complete = some true ∧
      (max 100 ((472 - 472 * (sampleState.steps.getD sampleState.currentStep default).progress / 100)
          * 8 * 1024 / (DEFAULT_CONFIG.speed * 1000000) * 1000) ≤ 1500 → tail.length = 1)) :=
  ⟨by decide, rfl, by rw [part001_example_time]; norm_num, by norm_num,
   by norm_num [sampleState], by norm_num [sampleState],
   (recalculateDownloadSteps_spec DEFAULT_CONFIG "echo" 472 0 (fun _ => 0) sampleState).2.2
     (by decide) rfl (by rw [part001_example_time]; norm_num) (by norm_num)
     (by norm_num [sampleState]) (by norm_num [sampleState])⟩
